import Mathlib

/-!
# Verification of the raw-brass windowing/drawing abstraction

A shallow embedding of the core of the `raw-brass` crate:

* the XCB property-marshalling protocol (`src/window/xcb/property.rs`),
* the two backends' event translation (`src/window/winit.rs`, `src/window/xcb.rs`),
* the application driver's poll loop (`src/app.rs`).

Machine integers (`u8`, `u16`, `u32`, `xcb::Atom = u32`) are modelled as `Nat`:
the embedded code only moves these values around and compares them, it never
performs wrapping arithmetic.  `f64` coordinates are modelled as `Rat`: the code
never computes with them except for `to_physical(1.0)` (multiplication by
one, exact in `f64`) and widening casts from `i16`, both exact, so the
rational model is faithful.  Rust `String` is modelled as its byte list,
with the UTF-8 validity invariant made explicit where the code checks it.
Functions that panic (`unimplemented!`) are modelled as `Option`-valued,
returning `none` on the panicking path.
-/

namespace RawBrass

/-- Model of `f64` for coordinates and dimensions (only moved and compared,
never computed with, except exact operations; see module comment). -/
abbrev F64 := Rat

/-! ## Event model (`src/event.rs`, `src/window.rs`) -/

/-- `PressState` from `src/event.rs`. -/
inductive PressState where
  | Pressed
  | Released
deriving DecidableEq, Repr

/-- `MouseButton` from `src/event.rs`: only `Left | Right | Middle`. -/
inductive MouseButton where
  | Left
  | Right
  | Middle
deriving DecidableEq, Repr

/-- `MouseMoveEvent` from `src/event.rs`. -/
structure MouseMoveEvent where
  pos : F64 × F64
deriving DecidableEq, Repr

/-- `MouseClickEvent` from `src/event.rs`. -/
structure MouseClickEvent where
  state : PressState
  button : MouseButton
  pos : F64 × F64
deriving DecidableEq, Repr

/-- `KeyboardEvent` from `src/event.rs` (keycode modelled as `Nat`). -/
structure KeyboardEvent where
  state : PressState
  keycode : Nat
deriving DecidableEq, Repr

/-- `WindowEvent` from `src/window.rs`. -/
inductive WindowEvent where
  | CloseRequested
  | CloseHappened
  | ResizeHappened (dims : F64 × F64)
  | MouseMove (e : MouseMoveEvent)
  | MouseClick (e : MouseClickEvent)
  | MouseEnter
  | MouseExit
  | Keyboard (e : KeyboardEvent)
  | Expose
deriving DecidableEq, Repr

/-- `WindowDims` from `src/window.rs`. -/
structure WindowDims where
  x : Int
  y : Int
  width : Nat
  height : Nat
deriving DecidableEq, Repr

/-! ## XCB backend state and error type (`src/window/xcb.rs`) -/

/-- `xcb::ATOM_ATOM` (X11 predefined atom 4). -/
def ATOM_ATOM : Nat := 4
/-- `xcb::ATOM_CARDINAL` (X11 predefined atom 6). -/
def ATOM_CARDINAL : Nat := 6
/-- `xcb::ATOM_STRING` (X11 predefined atom 31). -/
def ATOM_STRING : Nat := 31

/-- Model of `XcbBackend` (`src/window/xcb.rs`): the fields the embedded code
reads.  `intern` models `intern_atom` on the backend's connection, i.e. the
server's atom table (`intern_atom` returning successfully; the network-failure
path of `intern_atom` is outside the embedding). -/
structure XcbBackend where
  wm_delete_window_atom : Nat
  intern : String → Nat

/-- `XcbBackendError` from `src/window/xcb.rs`.  The `Other(String)` payload is
modelled as `Nat` since nothing in the embedded code constructs or inspects it. -/
inductive XcbBackendError where
  | ConnectionFailed
  | InternAtomFailed
  | PropertyTypeMismatch (expected : Nat) (found : Nat)
  | PropertyEncodingError
  | Other (s : Nat)
  | Unknown
deriving DecidableEq, Repr

/-! ## Property marshalling (`src/window/xcb/property.rs`) -/

/-- `XPropertyType` from `src/window/xcb/property.rs`. -/
inductive XPropertyType where
  | Atom
  | Latin1String
  | Utf8String
  | Cardinal
deriving DecidableEq, Repr

/-- `XPropertyType::atom` from `src/window/xcb/property.rs`: the wire type tag
each logical type declares. -/
def XPropertyType.atom (t : XPropertyType) (backend : XcbBackend) : Nat :=
  match t with
  | .Atom => ATOM_ATOM
  | .Latin1String => ATOM_STRING
  | .Utf8String => backend.intern "UTF8_STRING"
  | .Cardinal => ATOM_CARDINAL

/-- The wire format widths (`XPropertyFormat::size` for `u8`/`u16`/`u32`). -/
inductive XPropertyFormat where
  | u8
  | u16
  | u32
deriving DecidableEq, Repr

/-- `XPropertyFormat::size`. -/
def XPropertyFormat.size : XPropertyFormat → Nat
  | .u8 => 1
  | .u16 => 2
  | .u32 => 4

/-- `XPropertyFormat::format`: `size * 8` bits. -/
def XPropertyFormat.format (f : XPropertyFormat) : Nat :=
  f.size * 8

/-- Model of `xcb::GetPropertyReply` as the decoders consume it: the reply's
wire type tag (`reply.type_()`) and the element list produced by
`reply.value::<F>()` at the requested format width (u32 elements for the
32-bit decoders, bytes for the string decoders). -/
structure GetPropertyReply where
  type_ : Nat
  value : List Nat
deriving DecidableEq, Repr

/-- `CardinalProperty` from `src/window/xcb/property.rs` (a `u32` newtype). -/
structure CardinalProperty where
  val : Nat
deriving DecidableEq, Repr

/-- `AtomProperty` from `src/window/xcb/property.rs` (an `xcb::Atom` newtype). -/
structure AtomProperty where
  val : Nat
deriving DecidableEq, Repr

/-- Rust `String` modelled as its byte list (the UTF-8 validity invariant of
Rust's `String` is carried as a hypothesis where needed). -/
abbrev RustString := List Nat

/-- `Latin1String` from `src/window/xcb/property.rs`. -/
structure Latin1String where
  data : List Nat
deriving DecidableEq, Repr

/-- `<CardinalProperty as XProperty<u32>>::from_property_reply`: check the
reply's wire type tag against `XPropertyType::Cardinal`, then wrap each `u32`. -/
def CardinalProperty.from_property_reply (backend : XcbBackend)
    (reply : GetPropertyReply) (_target_offset _target_length : Nat) :
    Except XcbBackendError (List CardinalProperty) :=
  if reply.type_ ≠ XPropertyType.Cardinal.atom backend then
    .error (.PropertyTypeMismatch (XPropertyType.Cardinal.atom backend) reply.type_)
  else
    .ok (reply.value.map (fun atom => CardinalProperty.mk atom))

/-- `<CardinalProperty as XProperty<u32>>::to_property_value`: unwrap each value. -/
def CardinalProperty.to_property_value (_backend : XcbBackend)
    (values : List CardinalProperty) : Except XcbBackendError (List Nat) :=
  .ok (values.map (fun cardinal => cardinal.val))

/-- `<AtomProperty as XProperty<u32>>::from_property_reply`: check the reply's
wire type tag against `XPropertyType::Atom`, then wrap each `u32`. -/
def AtomProperty.from_property_reply (backend : XcbBackend)
    (reply : GetPropertyReply) (_target_offset _target_length : Nat) :
    Except XcbBackendError (List AtomProperty) :=
  if reply.type_ ≠ XPropertyType.Atom.atom backend then
    .error (.PropertyTypeMismatch (XPropertyType.Atom.atom backend) reply.type_)
  else
    .ok (reply.value.map (fun atom => AtomProperty.mk atom))

/-- `<AtomProperty as XProperty<u32>>::to_property_value`. -/
def AtomProperty.to_property_value (_backend : XcbBackend)
    (values : List AtomProperty) : Except XcbBackendError (List Nat) :=
  .ok (values.map (fun atom => atom.val))

/-- Rust `slice::split(|b| *b == 0)`: subslices separated by zero bytes.
`split [] = [[]]`, and each zero byte terminates the current segment. -/
def splitNull : List Nat → List (List Nat)
  | [] => [[]]
  | b :: rest =>
    if b = 0 then [] :: splitNull rest
    else
      match splitNull rest with
      | s :: ss => (b :: s) :: ss
      | [] => [[b]]

/-- `String::from_utf8` validity: the standard UTF-8 acceptance predicate on
byte lists (RFC 3629: no continuation-byte starts, no overlong forms, no
surrogates, nothing above U+10FFFF). -/
def utf8Valid : List Nat → Bool
  | [] => true
  | b :: rest =>
    if b < 0x80 then
      utf8Valid rest
    else if b < 0xC2 then
      false
    else if b < 0xE0 then
      match rest with
      | c1 :: r => (decide (0x80 ≤ c1 ∧ c1 < 0xC0)) && utf8Valid r
      | [] => false
    else if b < 0xF0 then
      match rest with
      | c1 :: c2 :: r =>
        (decide ((if b = 0xE0 then 0xA0 else 0x80) ≤ c1 ∧
                 c1 ≤ (if b = 0xED then 0x9F else 0xBF))) &&
        (decide (0x80 ≤ c2 ∧ c2 < 0xC0)) && utf8Valid r
      | _ => false
    else if b < 0xF5 then
      match rest with
      | c1 :: c2 :: c3 :: r =>
        (decide ((if b = 0xF0 then 0x90 else 0x80) ≤ c1 ∧
                 c1 ≤ (if b = 0xF4 then 0x8F else 0xBF))) &&
        (decide (0x80 ≤ c2 ∧ c2 < 0xC0)) &&
        (decide (0x80 ≤ c3 ∧ c3 < 0xC0)) && utf8Valid r
      | _ => false
    else
      false

/-- `String::from_utf8(s.to_owned())` as the decoder uses it: the same bytes on
success, an error value on invalid UTF-8. -/
def stringFromUtf8 (s : List Nat) : Except XcbBackendError RustString :=
  if utf8Valid s then .ok s else .error .PropertyEncodingError

/-- `<String as XProperty<u8>>::from_property_reply`: split the raw bytes on
null bytes, drop empty segments, validate each segment as UTF-8.  Note: the
reply's wire type tag is never inspected. -/
def RustString.from_property_reply (_backend : XcbBackend)
    (reply : GetPropertyReply) (_target_offset _target_length : Nat) :
    Except XcbBackendError (List RustString) :=
  ((splitNull reply.value).filter (fun s => !s.isEmpty)).mapM stringFromUtf8

/-- `<String as XProperty<u8>>::to_property_value`: the bytes of each string
followed by a null terminator, for every element including the last. -/
def RustString.to_property_value (_backend : XcbBackend)
    (values : List RustString) : Except XcbBackendError (List Nat) :=
  .ok (values.foldl (fun buf value => buf ++ value ++ [0]) [])

/-- `<Latin1String as XProperty<u8>>::from_property_reply`: split on null
bytes, drop empty segments, no validity check.  The reply's wire type tag is
never inspected. -/
def Latin1String.from_property_reply (_backend : XcbBackend)
    (reply : GetPropertyReply) (_target_offset _target_length : Nat) :
    Except XcbBackendError (List Latin1String) :=
  .ok (((splitNull reply.value).filter (fun s => !s.isEmpty)).map
    (fun s => Latin1String.mk s))

/-- `<Latin1String as XProperty<u8>>::to_property_value`: the bytes of each
string followed by a null terminator, for every element including the last. -/
def Latin1String.to_property_value (_backend : XcbBackend)
    (values : List Latin1String) : Except XcbBackendError (List Nat) :=
  .ok (values.foldl (fun buf value => buf ++ value.data ++ [0]) [])

/-! ## `get_property` / `set_property` (`src/window/xcb.rs`)

`XcbBackend::get_property::<F, T>` issues the protocol request and then runs
`T::from_property_reply` on the reply; the network fetch is abstracted by
taking the reply as input.  One monomorphic instance per `(F, T)` pair the
code uses. -/

/-- `get_property::<u32, CardinalProperty>`. -/
def XcbBackend.get_property_cardinal (b : XcbBackend) (reply : GetPropertyReply)
    (offset length : Nat) : Except XcbBackendError (List CardinalProperty) :=
  CardinalProperty.from_property_reply b reply offset length

/-- `get_property::<u32, AtomProperty>`. -/
def XcbBackend.get_property_atom (b : XcbBackend) (reply : GetPropertyReply)
    (offset length : Nat) : Except XcbBackendError (List AtomProperty) :=
  AtomProperty.from_property_reply b reply offset length

/-- `get_property::<u8, String>`. -/
def XcbBackend.get_property_utf8 (b : XcbBackend) (reply : GetPropertyReply)
    (offset length : Nat) : Except XcbBackendError (List RustString) :=
  RustString.from_property_reply b reply offset length

/-- `get_property::<u8, Latin1String>`. -/
def XcbBackend.get_property_latin1 (b : XcbBackend) (reply : GetPropertyReply)
    (offset length : Nat) : Except XcbBackendError (List Latin1String) :=
  Latin1String.from_property_reply b reply offset length

/-- The `xcb::change_property` request that `XcbBackend::set_property` issues:
destination window and property, the wire type tag (`T::property_type().atom`),
the wire format in bits (`F::format()`), and the encoded data. -/
structure PropertyWrite where
  window : Nat
  property : Nat
  type_ : Nat
  format : Nat
  data : List Nat
deriving DecidableEq, Repr

/-- `set_property::<u32, AtomProperty>`: encode via `to_property_value`, then
issue `change_property` tagged with `ATOM` / 32 bits. -/
def XcbBackend.set_property_atom (b : XcbBackend) (window property : Nat)
    (values : List AtomProperty) : Except XcbBackendError PropertyWrite := do
  let value ← AtomProperty.to_property_value b values
  .ok ⟨window, property, XPropertyType.Atom.atom b, XPropertyFormat.u32.format, value⟩

/-- `set_property::<u32, CardinalProperty>`. -/
def XcbBackend.set_property_cardinal (b : XcbBackend) (window property : Nat)
    (values : List CardinalProperty) : Except XcbBackendError PropertyWrite := do
  let value ← CardinalProperty.to_property_value b values
  .ok ⟨window, property, XPropertyType.Cardinal.atom b, XPropertyFormat.u32.format, value⟩

/-! ## XCB window creation (`src/window/xcb.rs`, `XcbBackend::create_window`) -/

/-- `XcbBackend::create_window` (the property-protocol side): after the native
`create_window_checked` call succeeds (abstracted; `wid` is the generated id),
the WM_PROTOCOLS property is set to the WM_DELETE_WINDOW atom so the window
receives close-request client messages.  Returns the window id and the
property writes issued. -/
def XcbBackend.create_window (b : XcbBackend) (wid : Nat) (_dims : WindowDims) :
    Except XcbBackendError (Nat × List PropertyWrite) := do
  let wm_protocols_atom := b.intern "WM_PROTOCOLS"
  let write ← b.set_property_atom wid wm_protocols_atom
    [AtomProperty.mk b.wm_delete_window_atom]
  .ok (wid, [write])

/-! ## XCB event translation (`src/window/xcb.rs`, `get_window_events`) -/

/-- A native XCB event after the `response_type() & !0x80` dispatch: one
constructor per handled response type, with the payload fields the translation
reads (`ButtonPressEvent::detail/event_x/event_y`, i16 coordinates;
`ClientMessageEvent::data().data32()[0]`).  `other` covers every unhandled
response type. -/
inductive XcbEvent where
  | buttonPress (detail : Nat) (event_x event_y : Int)
  | buttonRelease (detail : Nat) (event_x event_y : Int)
  | expose
  | destroyNotify
  | clientMessage (data0 : Nat)
  | other (response_type : Nat)
deriving DecidableEq, Repr

/-- The translation step of `XcbBackend::get_window_events`: the `match` on the
masked response type.  Button events ignore `detail` (the inner
`match button_event.detail() { _ => {} }` is a no-op) and always report
`MouseButton::Left`; client messages compare `data32()[0]` against the
WM_DELETE_WINDOW atom. -/
def XcbBackend.translate_event (b : XcbBackend) : XcbEvent → Option WindowEvent
  | .buttonPress _detail x y =>
    some (.MouseClick ⟨.Pressed, MouseButton.Left, ((x : F64), (y : F64))⟩)
  | .buttonRelease _detail x y =>
    some (.MouseClick ⟨.Released, MouseButton.Left, ((x : F64), (y : F64))⟩)
  | .expose => some .Expose
  | .destroyNotify => some .CloseHappened
  | .clientMessage data0 =>
    if data0 = b.wm_delete_window_atom then some .CloseRequested else none
  | .other _ => none

/-- The drain loop of `XcbBackend::get_window_events`: translate each pending
native event and `push_back` the translated ones onto the event buffer.  The
pending native events (successive `poll_for_event` results) are the list
argument. -/
def XcbBackend.get_window_events (b : XcbBackend) (pending : List XcbEvent)
    (event_buf : List WindowEvent) : List WindowEvent :=
  pending.foldl
    (fun buf event =>
      match b.translate_event event with
      | some e => buf ++ [e]
      | none => buf)
    event_buf

/-- `XcbBackend::set_window_size`: logs an error and returns normally
(no panic), modelled as `some ()`. -/
def XcbBackend.set_window_size (_b : XcbBackend) (_window : Nat)
    (_dims : Nat × Nat) : Option Unit :=
  some ()

/-- `XcbBackend::is_window_open`: `unimplemented!()`, i.e. a panic on every
input, modelled as `none`. -/
def XcbBackend.is_window_open (_b : XcbBackend) (_window : Nat) : Option Unit :=
  none

/-! ## Winit backend (`src/window/winit.rs`) -/

/-- `winit::MouseButton`. -/
inductive WinitMouseButton where
  | left
  | right
  | middle
  | otherBtn (code : Nat)
deriving DecidableEq, Repr

/-- The native winit events `convert_winit_event` dispatches on (all under
`Event::WindowEvent`); `resized` carries the logical size, `cursorMoved` the
logical position (`to_physical(1.0)` is applied in the translation).
`otherEvt` covers unmapped window events and non-window top-level events. -/
inductive WinitEvent where
  | closeRequested
  | resized (logical_size : F64 × F64)
  | mouseInput (state : PressState) (button : WinitMouseButton)
  | cursorMoved (position : F64 × F64)
  | otherEvt
deriving DecidableEq, Repr

/-- `LogicalSize::to_physical(scale)` / `LogicalPosition::to_physical(scale)`:
multiply both components by the scale factor (exact at scale 1.0). -/
def toPhysical (scale : F64) (p : F64 × F64) : F64 × F64 :=
  (p.1 * scale, p.2 * scale)

/-- `convert_winit_event` from `src/window/winit.rs`: pure translation of one
native event; unmapped buttons and unmapped event kinds yield `none`;
click positions are filled with a `(0,0)` placeholder (repaired by
`get_window_events`). -/
def convert_winit_event : WinitEvent → Option WindowEvent
  | .closeRequested => some .CloseRequested
  | .resized logical_size =>
    some (.ResizeHappened (toPhysical 1 logical_size))
  | .mouseInput state button =>
    match button with
    | .left => some (.MouseClick ⟨state, MouseButton.Left, (0, 0)⟩)
    | .right => some (.MouseClick ⟨state, MouseButton.Right, (0, 0)⟩)
    | .middle => some (.MouseClick ⟨state, MouseButton.Middle, (0, 0)⟩)
    | .otherBtn _ => none
  | .cursorMoved position =>
    some (.MouseMove ⟨toPhysical 1 position⟩)
  | .otherEvt => none

/-- Model of `WinitWindow`: the field the event logic touches
(`last_cursor_position`); the native window and events loop are opaque. -/
structure WinitWindow where
  last_cursor_position : F64 × F64
deriving DecidableEq, Repr

/-- `WinitBackend::create_window`: the cursor-position cache starts at `(0,0)`. -/
def WinitBackend.create_window (_title : String) (_dims : WindowDims) : WinitWindow :=
  { last_cursor_position := (0, 0) }

/-- `WinitBackend::get_window_events`: for each native event delivered by
`poll_events`, translate it; a `MouseMove` overwrites the window's
`last_cursor_position`, a `MouseClick` has its position replaced by the cached
`last_cursor_position`; the result is pushed onto the event buffer.  Returns
the updated window and buffer. -/
def WinitBackend.get_window_events (window : WinitWindow)
    (pending : List WinitEvent) (event_buf : List WindowEvent) :
    WinitWindow × List WindowEvent :=
  pending.foldl
    (fun (acc : WinitWindow × List WindowEvent) evt =>
      match convert_winit_event evt with
      | none => acc
      | some e =>
        match e with
        | .MouseMove mouse_move_event =>
          (⟨mouse_move_event.pos⟩, acc.2 ++ [.MouseMove mouse_move_event])
        | .MouseClick mouse_click_event =>
          (acc.1, acc.2 ++
            [.MouseClick { mouse_click_event with pos := acc.1.last_cursor_position }])
        | e => (acc.1, acc.2 ++ [e]))
    (window, event_buf)

/-- `WinitBackend::set_window_size`: `unimplemented!()`, a panic on every
input, modelled as `none`. -/
def WinitBackend.set_window_size (_window : WinitWindow) (_dims : Nat × Nat) :
    Option Unit :=
  none

/-- `WinitBackend::is_window_open`: `unimplemented!()`, a panic on every
input, modelled as `none`. -/
def WinitBackend.is_window_open (_window : WinitWindow) : Option Unit :=
  none

/-! ## Application driver (`src/app.rs`) -/

/-- The `App` state the poll loop touches: the pending-event queue, the cached
frame dimensions, the drawing backend's surface size (the state
`resize_surface` mutates), and `last_hovered`.  The backend and window handles
are modelled separately. -/
structure AppState where
  evt_buf : List WindowEvent
  frame_dims : F64 × F64
  surface_dims : F64 × F64
  last_hovered : Option Nat
deriving DecidableEq, Repr

/-- The drain loop of `App::poll_events`: pop each event off the front of the
queue; on `ResizeHappened { dims }` call `resize_surface(dims)` and set
`frame_dims = dims`; then invoke the callback.  Returns the list of
(state as the callback observes it, event) pairs in call order, and the final
state. -/
def App.drainLoop (frame_dims surface_dims : F64 × F64) (last_hovered : Option Nat) :
    List WindowEvent → List (AppState × WindowEvent) × AppState
  | [] => ([], ⟨[], frame_dims, surface_dims, last_hovered⟩)
  | evt :: rest =>
    let (frame_dims1, surface_dims1) :=
      match evt with
      | .ResizeHappened dims => (dims, dims)
      | _ => (frame_dims, surface_dims)
    let observed : AppState := ⟨rest, frame_dims1, surface_dims1, last_hovered⟩
    let (calls, final) := App.drainLoop frame_dims1 surface_dims1 last_hovered rest
    ((observed, evt) :: calls, final)

/-- `App::poll_events`: `get_window_events` appends the backend's newly
translated events to the queue (`newEvents`), then the drain loop runs. -/
def App.poll_events (s : AppState) (newEvents : List WindowEvent) :
    List (AppState × WindowEvent) × AppState :=
  App.drainLoop s.frame_dims s.surface_dims s.last_hovered (s.evt_buf ++ newEvents)

/-! ## Helper definitions and lemmas -/

/-- A concrete backend instance for witnesses and counterexamples: the
WM_DELETE_WINDOW atom and an atom table as an X server might intern them. -/
def sampleBackend : XcbBackend where
  wm_delete_window_atom := 500
  intern := fun s =>
    if s = "UTF8_STRING" then 335
    else if s = "WM_PROTOCOLS" then 340
    else 0

/-- The last physical cursor position among a list of native winit events,
starting from a given cached position: `cursorMoved` overwrites it, everything
else leaves it. -/
def lastMovePos (cache : F64 × F64) : List WinitEvent → F64 × F64
  | [] => cache
  | .cursorMoved p :: rest => lastMovePos (toPhysical 1 p) rest
  | _ :: rest => lastMovePos cache rest

/-- Embedding of the three supported logical buttons into winit's native
button type (the arm of `convert_winit_event` that maps them). -/
def nativeButton : MouseButton → WinitMouseButton
  | .Left => .left
  | .Right => .right
  | .Middle => .middle

lemma winit_gwe_nil (w : WinitWindow) (buf : List WindowEvent) :
    WinitBackend.get_window_events w [] buf = (w, buf) := rfl

lemma winit_gwe_cons (w : WinitWindow) (e : WinitEvent) (rest : List WinitEvent)
    (buf : List WindowEvent) :
    WinitBackend.get_window_events w (e :: rest) buf =
      match convert_winit_event e with
      | none => WinitBackend.get_window_events w rest buf
      | some evt =>
        match evt with
        | .MouseMove m => WinitBackend.get_window_events ⟨m.pos⟩ rest (buf ++ [.MouseMove m])
        | .MouseClick c => WinitBackend.get_window_events w rest
            (buf ++ [.MouseClick { c with pos := w.last_cursor_position }])
        | evt => WinitBackend.get_window_events w rest (buf ++ [evt]) := by
  simp only [WinitBackend.get_window_events, List.foldl_cons]
  cases h : convert_winit_event e with
  | none => rfl
  | some evt => cases evt <;> rfl

lemma winit_gwe_append (w : WinitWindow) (xs ys : List WinitEvent)
    (buf : List WindowEvent) :
    WinitBackend.get_window_events w (xs ++ ys) buf =
      WinitBackend.get_window_events (WinitBackend.get_window_events w xs buf).1 ys
        (WinitBackend.get_window_events w xs buf).2 := by
  simp only [WinitBackend.get_window_events, List.foldl_append]

/-- The window component of the winit drain is the last cursor position seen. -/
lemma winit_gwe_window (w : WinitWindow) (xs : List WinitEvent)
    (buf : List WindowEvent) :
    (WinitBackend.get_window_events w xs buf).1 =
      ⟨lastMovePos w.last_cursor_position xs⟩ := by
  induction xs generalizing w buf with
  | nil => rfl
  | cons e rest ih =>
    rw [winit_gwe_cons]
    cases e with
    | closeRequested => simpa [convert_winit_event, lastMovePos] using ih w _
    | resized d => simpa [convert_winit_event, lastMovePos] using ih w _
    | mouseInput st b =>
      cases b <;> simpa [convert_winit_event, lastMovePos] using ih w _
    | cursorMoved p => simpa [convert_winit_event, lastMovePos] using ih ⟨toPhysical 1 p⟩ _
    | otherEvt => simpa [convert_winit_event, lastMovePos] using ih w _

lemma splitNull_ne_nil (l : List Nat) : splitNull l ≠ [] := by
  cases l with
  | nil => simp [splitNull]
  | cons b rest =>
    simp only [splitNull]
    split
    · simp
    · cases h : splitNull rest <;> simp

/-- Splitting a buffer that starts with a null-free segment followed by a null
byte yields that segment first. -/
lemma splitNull_append (v rest : List Nat) (hv : ∀ b ∈ v, b ≠ 0) :
    splitNull (v ++ 0 :: rest) = v :: splitNull rest := by
  induction v with
  | nil => simp [splitNull]
  | cons b v ih =>
    have hb : b ≠ 0 := hv b (by simp)
    have hv' : ∀ x ∈ v, x ≠ 0 := fun x hx => hv x (by simp [hx])
    simp only [List.cons_append, splitNull, if_neg hb, List.append_eq, ih hv']

lemma foldl_encode_acc (vs : List (List Nat)) (acc : List Nat) :
    vs.foldl (fun buf v => buf ++ v ++ [0]) acc =
      acc ++ vs.foldl (fun buf v => buf ++ v ++ [0]) [] := by
  induction vs generalizing acc with
  | nil => simp
  | cons v vs ih =>
    simp only [List.foldl_cons]
    rw [ih (acc ++ v ++ [0]), ih (([] : List Nat) ++ v ++ [0])]
    simp

/-- The string encoding loop in recursive form: each element is followed by a
null terminator, including the last. -/
lemma encode_cons (v : List Nat) (vs : List (List Nat)) :
    (v :: vs).foldl (fun buf w => buf ++ w ++ [0]) [] =
      v ++ 0 :: vs.foldl (fun buf w => buf ++ w ++ [0]) [] := by
  simp only [List.foldl_cons]
  rw [foldl_encode_acc]
  simp

/-- Splitting the encoding of null-free segments recovers the segments, plus
one trailing empty segment from the final terminator. -/
lemma splitNull_encode (vs : List (List Nat)) (h : ∀ v ∈ vs, ∀ b ∈ v, b ≠ 0) :
    splitNull (vs.foldl (fun buf v => buf ++ v ++ [0]) []) = vs ++ [[]] := by
  induction vs with
  | nil => simp [splitNull]
  | cons v vs ih =>
    rw [encode_cons, splitNull_append v _ (h v (by simp))]
    rw [ih (fun w hw => h w (by simp [hw]))]
    simp

lemma mapM_valid (l : List (List Nat)) (h : ∀ s ∈ l, utf8Valid s) :
    l.mapM stringFromUtf8 = Except.ok l := by
  induction l with
  | nil => rfl
  | cons s rest ih =>
    rw [List.mapM_cons]
    have hs : stringFromUtf8 s = .ok s := by simp [stringFromUtf8, h s (by simp)]
    rw [hs, ih (fun x hx => h x (by simp [hx]))]
    rfl

/-- How the cached frame dimensions and the surface dimensions evolve over a
drained queue: each `ResizeHappened` overwrites both. -/
def dimsAfter (frame_dims surface_dims : F64 × F64) :
    List WindowEvent → (F64 × F64) × (F64 × F64)
  | [] => (frame_dims, surface_dims)
  | .ResizeHappened d :: rest => dimsAfter d d rest
  | .CloseRequested :: rest => dimsAfter frame_dims surface_dims rest
  | .CloseHappened :: rest => dimsAfter frame_dims surface_dims rest
  | .MouseMove _ :: rest => dimsAfter frame_dims surface_dims rest
  | .MouseClick _ :: rest => dimsAfter frame_dims surface_dims rest
  | .MouseEnter :: rest => dimsAfter frame_dims surface_dims rest
  | .MouseExit :: rest => dimsAfter frame_dims surface_dims rest
  | .Keyboard _ :: rest => dimsAfter frame_dims surface_dims rest
  | .Expose :: rest => dimsAfter frame_dims surface_dims rest

lemma dimsAfter_not_resize (f s : F64 × F64) (e : WindowEvent) (rest : List WindowEvent)
    (h : ∀ d, e ≠ .ResizeHappened d) :
    dimsAfter f s (e :: rest) = dimsAfter f s rest := by
  cases e with
  | ResizeHappened d => exact absurd rfl (h d)
  | _ => rfl

lemma dimsAfter_no_resize (q : List WindowEvent) (f s : F64 × F64)
    (h : ∀ d, WindowEvent.ResizeHappened d ∉ q) :
    dimsAfter f s q = (f, s) := by
  induction q generalizing f s with
  | nil => rfl
  | cons e rest ih =>
    rw [dimsAfter_not_resize f s e rest
      (fun d hd => h d (by simp [hd]))]
    exact ih f s (fun d hd => h d (by simp [hd]))

lemma dimsAfter_append (q1 q2 : List WindowEvent) (f s : F64 × F64) :
    dimsAfter f s (q1 ++ q2) =
      dimsAfter (dimsAfter f s q1).1 (dimsAfter f s q1).2 q2 := by
  induction q1 generalizing f s with
  | nil => rfl
  | cons e rest ih =>
    cases e <;> simp only [List.cons_append, dimsAfter] <;> exact ih _ _

/-- The final state of the drain loop: the queue is emptied, the dimensions are
those after the last resize event, `last_hovered` is untouched. -/
lemma drainLoop_final (q : List WindowEvent) (f s : F64 × F64) (hov : Option Nat) :
    (App.drainLoop f s hov q).2 =
      ⟨[], (dimsAfter f s q).1, (dimsAfter f s q).2, hov⟩ := by
  induction q generalizing f s with
  | nil => rfl
  | cons e rest ih =>
    cases e <;> simp only [App.drainLoop, dimsAfter] <;> exact ih _ _

/-- The callback sees exactly the drained queue, in order. -/
lemma drainLoop_calls (q : List WindowEvent) (f s : F64 × F64) (hov : Option Nat) :
    (App.drainLoop f s hov q).1.map Prod.snd = q := by
  induction q generalizing f s with
  | nil => rfl
  | cons e rest ih =>
    cases e <;> simp only [App.drainLoop, List.map_cons] <;> rw [ih]

/-- Any resize event is observed by the callback with both the surface and the
cached frame dimensions already set to that event's dimensions. -/
lemma drainLoop_resize_observed (q : List WindowEvent) (f s : F64 × F64)
    (hov : Option Nat) (obs : AppState) (dims : F64 × F64)
    (h : (obs, WindowEvent.ResizeHappened dims) ∈ (App.drainLoop f s hov q).1) :
    obs.surface_dims = dims ∧ obs.frame_dims = dims := by
  induction q generalizing f s with
  | nil => simp [App.drainLoop] at h
  | cons e rest ih =>
    cases e with
    | ResizeHappened d =>
      simp only [App.drainLoop, List.mem_cons, Prod.mk.injEq] at h
      rcases h with ⟨hobs, hevt⟩ | h
      · cases hevt
        subst hobs
        exact ⟨rfl, rfl⟩
      · exact ih _ _ h
    | CloseRequested =>
      simp only [App.drainLoop, List.mem_cons, Prod.mk.injEq] at h
      rcases h with ⟨_, hevt⟩ | h
      · cases hevt
      · exact ih _ _ h
    | CloseHappened =>
      simp only [App.drainLoop, List.mem_cons, Prod.mk.injEq] at h
      rcases h with ⟨_, hevt⟩ | h
      · cases hevt
      · exact ih _ _ h
    | MouseMove m =>
      simp only [App.drainLoop, List.mem_cons, Prod.mk.injEq] at h
      rcases h with ⟨_, hevt⟩ | h
      · cases hevt
      · exact ih _ _ h
    | MouseClick c =>
      simp only [App.drainLoop, List.mem_cons, Prod.mk.injEq] at h
      rcases h with ⟨_, hevt⟩ | h
      · cases hevt
      · exact ih _ _ h
    | MouseEnter =>
      simp only [App.drainLoop, List.mem_cons, Prod.mk.injEq] at h
      rcases h with ⟨_, hevt⟩ | h
      · cases hevt
      · exact ih _ _ h
    | MouseExit =>
      simp only [App.drainLoop, List.mem_cons, Prod.mk.injEq] at h
      rcases h with ⟨_, hevt⟩ | h
      · cases hevt
      · exact ih _ _ h
    | Keyboard k =>
      simp only [App.drainLoop, List.mem_cons, Prod.mk.injEq] at h
      rcases h with ⟨_, hevt⟩ | h
      · cases hevt
      · exact ih _ _ h
    | Expose =>
      simp only [App.drainLoop, List.mem_cons, Prod.mk.injEq] at h
      rcases h with ⟨_, hevt⟩ | h
      · cases hevt
      · exact ih _ _ h

/-- In a drain with no resize events, every observed state keeps the initial
dimensions and `last_hovered`. -/
lemma drainLoop_no_resize_observed (q : List WindowEvent) (f s : F64 × F64)
    (hov : Option Nat) (h : ∀ d, WindowEvent.ResizeHappened d ∉ q) :
    ∀ p ∈ (App.drainLoop f s hov q).1,
      p.1.frame_dims = f ∧ p.1.surface_dims = s ∧ p.1.last_hovered = hov := by
  induction q generalizing f s with
  | nil => simp [App.drainLoop]
  | cons e rest ih =>
    have hrest : ∀ d, WindowEvent.ResizeHappened d ∉ rest :=
      fun d hd => h d (by simp [hd])
    intro p hp
    cases e with
    | ResizeHappened d => exact absurd (by simp) (h d)
    | CloseRequested =>
      simp only [App.drainLoop, List.mem_cons] at hp
      rcases hp with rfl | hp
      · exact ⟨rfl, rfl, rfl⟩
      · exact ih _ _ hrest p hp
    | CloseHappened =>
      simp only [App.drainLoop, List.mem_cons] at hp
      rcases hp with rfl | hp
      · exact ⟨rfl, rfl, rfl⟩
      · exact ih _ _ hrest p hp
    | MouseMove m =>
      simp only [App.drainLoop, List.mem_cons] at hp
      rcases hp with rfl | hp
      · exact ⟨rfl, rfl, rfl⟩
      · exact ih _ _ hrest p hp
    | MouseClick c =>
      simp only [App.drainLoop, List.mem_cons] at hp
      rcases hp with rfl | hp
      · exact ⟨rfl, rfl, rfl⟩
      · exact ih _ _ hrest p hp
    | MouseEnter =>
      simp only [App.drainLoop, List.mem_cons] at hp
      rcases hp with rfl | hp
      · exact ⟨rfl, rfl, rfl⟩
      · exact ih _ _ hrest p hp
    | MouseExit =>
      simp only [App.drainLoop, List.mem_cons] at hp
      rcases hp with rfl | hp
      · exact ⟨rfl, rfl, rfl⟩
      · exact ih _ _ hrest p hp
    | Keyboard k =>
      simp only [App.drainLoop, List.mem_cons] at hp
      rcases hp with rfl | hp
      · exact ⟨rfl, rfl, rfl⟩
      · exact ih _ _ hrest p hp
    | Expose =>
      simp only [App.drainLoop, List.mem_cons] at hp
      rcases hp with rfl | hp
      · exact ⟨rfl, rfl, rfl⟩
      · exact ih _ _ hrest p hp

/-! ## Claim theorems -/

/-- C7: For every native XCB button-press or button-release event, regardless
of the native button detail code, the XCB backend's translation emits a
`MouseClick` whose button field is `MouseButton::Left` (with the
press/release state and the event's own coordinates). -/
theorem xcb_button_always_left (b : XcbBackend) (detail : Nat) (x y : Int) :
    b.translate_event (.buttonPress detail x y) =
      some (.MouseClick ⟨.Pressed, MouseButton.Left, ((x : F64), (y : F64))⟩) ∧
    b.translate_event (.buttonRelease detail x y) =
      some (.MouseClick ⟨.Released, MouseButton.Left, ((x : F64), (y : F64))⟩) :=
  ⟨rfl, rfl⟩

/-- C2 counterexample: the claim "both backends emit no WindowEvent for a
native mouse-button event whose button code is not Left/Right/Middle" is false
for the XCB backend: native button detail 8 (neither 1 = Left, 2 = Middle nor
3 = Right) still produces a `MouseClick` event. -/
theorem xcb_unmapped_button_emits_event :
    sampleBackend.get_window_events [.buttonPress 8 3 4] [] =
      [.MouseClick ⟨.Pressed, MouseButton.Left, (3, 4)⟩] := by
  rfl

/-- C2 amended: the winit backend's translation emits no `WindowEvent` for a
native button outside Left/Right/Middle (the event is dropped entirely), but
the XCB backend emits a `MouseClick` with button `Left` for every native
button event regardless of its detail code. -/
theorem unmapped_button_dropped_amended (st : PressState) (code : Nat)
    (b : XcbBackend) (detail : Nat) (x y : Int) :
    convert_winit_event (.mouseInput st (.otherBtn code)) = none ∧
    (b.translate_event (.buttonPress detail x y)).isSome = true ∧
    (b.translate_event (.buttonRelease detail x y)).isSome = true :=
  ⟨rfl, rfl, rfl⟩

/-- C9 counterexample: the claim "set_window_size aborts via
unimplemented!-style panic on every input" is false for the XCB backend:
`XcbBackend::set_window_size` merely logs an error and returns normally. -/
theorem xcb_set_window_size_returns_normally :
    sampleBackend.set_window_size 7 (640, 480) = some () :=
  rfl

/-- C9 amended: `WinitBackend::set_window_size`, `WinitBackend::is_window_open`
and `XcbBackend::is_window_open` abort via `unimplemented!` on every input
(modelled as `none`), while `XcbBackend::set_window_size` logs and returns
normally on every input (modelled as `some ()`). -/
theorem unsupported_ops_abort_amended (w : WinitWindow) (dims : Nat × Nat)
    (b : XcbBackend) (win : Nat) :
    WinitBackend.set_window_size w dims = none ∧
    WinitBackend.is_window_open w = none ∧
    b.is_window_open win = none ∧
    b.set_window_size win dims = some () :=
  ⟨rfl, rfl, rfl, rfl⟩

/-- C8: XCB window creation issues exactly one property write, setting
WM_PROTOCOLS (wire type ATOM, format 32) to the WM_DELETE_WINDOW atom; and a
native client message whose first data word is that atom is translated to
exactly one `CloseRequested` event, while any other client message produces no
event. -/
theorem close_protocol_registration_and_translation (b : XcbBackend)
    (wid : Nat) (dims : WindowDims) (a : Nat) (buf : List WindowEvent) :
    b.create_window wid dims =
      .ok (wid, [⟨wid, b.intern "WM_PROTOCOLS", ATOM_ATOM, 32,
        [b.wm_delete_window_atom]⟩]) ∧
    b.get_window_events [.clientMessage a] buf =
      buf ++ (if a = b.wm_delete_window_atom then [.CloseRequested] else []) := by
  refine ⟨rfl, ?_⟩
  by_cases h : a = b.wm_delete_window_atom
  · simp [XcbBackend.get_window_events, XcbBackend.translate_event, h]
  · simp [XcbBackend.get_window_events, XcbBackend.translate_event, h]

/-- C1 counterexample: the claim "every property read whose reply wire type
tag differs from the requested logical type's tag fails with
PropertyTypeMismatch and never returns decoded data" is false for the
string-typed reads: a `get_property::<u8, String>` (logical type Utf8String,
whose declared wire type atom on this backend is 335) applied to a reply
tagged CARDINAL (6) succeeds and returns the decoded string "hi". -/
theorem string_property_read_ignores_wire_type :
    XPropertyType.Utf8String.atom sampleBackend = 335 ∧ (335 : Nat) ≠ ATOM_CARDINAL ∧
    sampleBackend.get_property_utf8 ⟨ATOM_CARDINAL, [104, 105, 0]⟩ 0 4 =
      .ok [[104, 105]] := by
  refine ⟨rfl, by decide, ?_⟩
  rfl

/-- C1 amended: reads at logical type Cardinal or Atom reject a reply whose
wire type tag differs from the declared tag with
`PropertyTypeMismatch { expected, found }` and return no decoded data; reads
at the string logical types (Utf8String, Latin1String) never inspect the
reply's wire type tag — their result depends only on the reply's bytes. -/
theorem property_read_type_mismatch_amended (b : XcbBackend)
    (r1 r2 : GetPropertyReply) (t t' : Nat) (v : List Nat) (off len : Nat)
    (hC : r1.type_ ≠ XPropertyType.Cardinal.atom b)
    (hA : r2.type_ ≠ XPropertyType.Atom.atom b) :
    b.get_property_cardinal r1 off len =
      .error (.PropertyTypeMismatch (XPropertyType.Cardinal.atom b) r1.type_) ∧
    b.get_property_atom r2 off len =
      .error (.PropertyTypeMismatch (XPropertyType.Atom.atom b) r2.type_) ∧
    b.get_property_utf8 ⟨t, v⟩ off len = b.get_property_utf8 ⟨t', v⟩ off len ∧
    b.get_property_latin1 ⟨t, v⟩ off len = b.get_property_latin1 ⟨t', v⟩ off len := by
  refine ⟨?_, ?_, rfl, rfl⟩
  · simp [XcbBackend.get_property_cardinal, CardinalProperty.from_property_reply, hC]
  · simp [XcbBackend.get_property_atom, AtomProperty.from_property_reply, hA]

/-- Witness for C1 amended, at a CARDINAL read of a STRING-tagged reply (31 vs
expected 6) and an ATOM read of a CARDINAL-tagged reply (6 vs expected 4). -/
theorem property_read_type_mismatch_witness :
    ((31 : Nat) ≠ XPropertyType.Cardinal.atom sampleBackend ∧
     (6 : Nat) ≠ XPropertyType.Atom.atom sampleBackend) ∧
    (sampleBackend.get_property_cardinal ⟨31, [7]⟩ 0 1 =
      .error (.PropertyTypeMismatch (XPropertyType.Cardinal.atom sampleBackend) 31) ∧
     sampleBackend.get_property_atom ⟨6, [7]⟩ 0 1 =
      .error (.PropertyTypeMismatch (XPropertyType.Atom.atom sampleBackend) 6) ∧
     sampleBackend.get_property_utf8 ⟨9, [104, 0]⟩ 0 1 =
       sampleBackend.get_property_utf8 ⟨335, [104, 0]⟩ 0 1 ∧
     sampleBackend.get_property_latin1 ⟨9, [104, 0]⟩ 0 1 =
       sampleBackend.get_property_latin1 ⟨335, [104, 0]⟩ 0 1) :=
  ⟨⟨by decide, by decide⟩,
    property_read_type_mismatch_amended sampleBackend ⟨31, [7]⟩ ⟨6, [7]⟩ 9 335
      [104, 0] 0 1 (by decide) (by decide)⟩

/-- C4: round trip for the integer property types, for every sequence of
Cardinal or Atom values (in particular every non-empty one): decoding via
`from_property_reply` the buffer produced by `to_property_value`, with the
reply tagged with the logical type's own wire type atom, yields exactly the
original sequence. -/
theorem integer_property_roundtrip (b : XcbBackend)
    (vsC : List CardinalProperty) (vsA : List AtomProperty) (off len : Nat) :
    (CardinalProperty.to_property_value b vsC).bind
      (fun ws => CardinalProperty.from_property_reply b
        ⟨XPropertyType.Cardinal.atom b, ws⟩ off len) = .ok vsC ∧
    (AtomProperty.to_property_value b vsA).bind
      (fun ws => AtomProperty.from_property_reply b
        ⟨XPropertyType.Atom.atom b, ws⟩ off len) = .ok vsA := by
  constructor
  · simp only [CardinalProperty.to_property_value, CardinalProperty.from_property_reply,
      Except.bind, List.map_map, ne_eq, not_true_eq_false, if_false, ite_not]
    simp only [if_pos rfl, Except.ok.injEq]
    exact List.map_id _
  · simp only [AtomProperty.to_property_value, AtomProperty.from_property_reply,
      Except.bind, List.map_map, ne_eq, not_true_eq_false, if_false, ite_not]
    simp only [if_pos rfl, Except.ok.injEq]
    exact List.map_id _

lemma encode_eq_join (vs : List (List Nat)) :
    vs.foldl (fun buf v => buf ++ v ++ [0]) [] = (vs.map (fun v => v ++ [0])).flatten := by
  induction vs with
  | nil => rfl
  | cons v vs ih => rw [encode_cons, ih]; simp

/-- C3: the winit backend's per-window cursor cache is `(0,0)` at window
creation; after draining any native event list the cache equals the position
of the most recent `cursorMoved` among them (`lastMovePos`); and the
`MouseClick` emitted for a native click carries exactly that cached value —
the click's own payload (which has no position; the translation inserts a
`(0,0)` placeholder) is never delivered. -/
theorem cursor_cache_click_position (title : String) (dims : WindowDims)
    (w : WinitWindow) (xs ys : List WinitEvent) (st : PressState)
    (mb : MouseButton) (buf : List WindowEvent) :
    (WinitBackend.create_window title dims).last_cursor_position = (0, 0) ∧
    (WinitBackend.get_window_events w xs buf).1.last_cursor_position =
      lastMovePos w.last_cursor_position xs ∧
    (WinitBackend.get_window_events w
        (xs ++ WinitEvent.mouseInput st (nativeButton mb) :: ys) buf).2 =
      (WinitBackend.get_window_events ⟨lastMovePos w.last_cursor_position xs⟩ ys
        ((WinitBackend.get_window_events w xs buf).2 ++
          [.MouseClick ⟨st, mb, lastMovePos w.last_cursor_position xs⟩])).2 := by
  refine ⟨rfl, by rw [winit_gwe_window], ?_⟩
  rw [winit_gwe_append w xs (WinitEvent.mouseInput st (nativeButton mb) :: ys) buf,
    winit_gwe_window w xs buf, winit_gwe_cons]
  cases mb <;> rfl

/-- C5 counterexample: the claim "for every sequence of non-empty UTF-8
strings decode(encode(values)) == values" is false: the string `"\0"` (the
single byte 0) is non-empty and valid UTF-8, yet encoding then decoding the
one-element sequence `["\0"]` yields the empty sequence, because the interior
null byte is indistinguishable from a terminator and the empty segments it
creates are discarded. -/
theorem string_roundtrip_fails_on_nul :
    utf8Valid [0] = true ∧ ([0] : RustString) ≠ [] ∧
    (RustString.to_property_value sampleBackend [[0]]).bind
      (fun buffer => RustString.from_property_reply sampleBackend
        ⟨335, buffer⟩ 0 8) = .ok [] :=
  ⟨by decide, by decide, rfl⟩

/-- C5 amended: string encoding appends a null terminator after every element
including the last (the encoded buffer is the concatenation of each element
followed by a null); decoding splits on null bytes and discards empty
segments; hence for every sequence of UTF-8 strings that are free of interior
null bytes, decode(encode(values)) is the original sequence with its empty
elements omitted — in particular the identity when all elements are non-empty.
The null-freeness restriction is forced: an element containing a null byte is
split at it (see the counterexample).  Likewise for `Latin1String`. -/
theorem string_property_roundtrip_amended (b : XcbBackend) (t : Nat)
    (vs : List RustString) (ws : List Latin1String) (off len : Nat)
    (hnullU : ∀ v ∈ vs, ∀ x ∈ v, x ≠ 0)
    (hvalid : ∀ v ∈ vs, utf8Valid v)
    (hnullL : ∀ w ∈ ws, ∀ x ∈ w.data, x ≠ 0) :
    RustString.to_property_value b vs = .ok ((vs.map (fun v => v ++ [0])).flatten) ∧
    (RustString.to_property_value b vs).bind
      (fun buffer => RustString.from_property_reply b ⟨t, buffer⟩ off len) =
      .ok (vs.filter (fun v => !v.isEmpty)) ∧
    (Latin1String.to_property_value b ws).bind
      (fun buffer => Latin1String.from_property_reply b ⟨t, buffer⟩ off len) =
      .ok (ws.filter (fun w => !w.data.isEmpty)) := by
  refine ⟨by rw [RustString.to_property_value, encode_eq_join], ?_, ?_⟩
  · show RustString.from_property_reply b
      ⟨t, vs.foldl (fun buf v => buf ++ v ++ [0]) []⟩ off len = _
    rw [RustString.from_property_reply]
    simp only [GetPropertyReply.mk.injEq]
    rw [splitNull_encode vs hnullU, List.filter_append]
    simp only [List.filter_cons, List.isEmpty_nil, Bool.not_true, Bool.false_eq_true,
      if_false, List.filter_nil, List.append_nil]
    exact mapM_valid _ (fun x hx => hvalid x (List.mem_of_mem_filter hx))
  · show Latin1String.from_property_reply b
      ⟨t, ws.foldl (fun buf w => buf ++ w.data ++ [0]) []⟩ off len = _
    rw [Latin1String.from_property_reply]
    have hfold : ws.foldl (fun buf w => buf ++ w.data ++ [0]) [] =
        (ws.map Latin1String.data).foldl (fun buf v => buf ++ v ++ [0]) [] := by
      rw [List.foldl_map]
    simp only [Except.ok.injEq]
    rw [hfold, splitNull_encode (ws.map Latin1String.data)
      (by
        intro v hv x hx
        rcases List.mem_map.mp hv with ⟨w, hw, rfl⟩
        exact hnullL w hw x hx),
      List.filter_append]
    simp only [List.filter_cons, List.isEmpty_nil, Bool.not_true, Bool.false_eq_true,
      if_false, List.filter_nil, List.append_nil]
    rw [List.filter_map, List.map_map]
    exact List.map_id _

/-- Witness for C5 amended: the sequence `["hi", "!"]` of non-empty null-free
UTF-8 strings round-trips exactly, and the Latin-1 sequence `["A"]` likewise. -/
theorem string_property_roundtrip_witness :
    ((∀ v ∈ [[104, 105], [33]], ∀ x ∈ v, x ≠ 0) ∧
     (∀ v ∈ ([[104, 105], [33]] : List RustString), utf8Valid v) ∧
     (∀ w ∈ [Latin1String.mk [65]], ∀ x ∈ w.data, x ≠ 0)) ∧
    (RustString.to_property_value sampleBackend [[104, 105], [33]] =
       .ok [104, 105, 0, 33, 0] ∧
     (RustString.to_property_value sampleBackend [[104, 105], [33]]).bind
       (fun buffer => RustString.from_property_reply sampleBackend
         ⟨335, buffer⟩ 0 16) = .ok [[104, 105], [33]] ∧
     (Latin1String.to_property_value sampleBackend [Latin1String.mk [65]]).bind
       (fun buffer => Latin1String.from_property_reply sampleBackend
         ⟨335, buffer⟩ 0 16) = .ok [Latin1String.mk [65]]) :=
  ⟨⟨by decide, by decide, by decide⟩,
    by
      exact string_property_roundtrip_amended sampleBackend 335
        [[104, 105], [33]] [Latin1String.mk [65]] 0 16
        (by decide) (by decide) (by decide)⟩

/-- C6: for every `ResizeHappened { dims }` event drained in a poll cycle, the
driver resizes the drawing surface to `dims` and sets its cached frame
dimensions to `dims` before invoking the caller's callback with that event
(the observed state at the callback already carries both); and when that event
is the last resize drained in the cycle, after the poll cycle both the surface
size and the cached frame dimensions equal the event's `dims`. -/
theorem resize_applied_before_callback (s : AppState) (new : List WindowEvent)
    (dims : F64 × F64) (obs : AppState) (q1 q2 : List WindowEvent)
    (hmem : (obs, WindowEvent.ResizeHappened dims) ∈ (App.poll_events s new).1)
    (hsplit : s.evt_buf ++ new = q1 ++ WindowEvent.ResizeHappened dims :: q2)
    (hlast : ∀ d, WindowEvent.ResizeHappened d ∉ q2) :
    (obs.surface_dims = dims ∧ obs.frame_dims = dims) ∧
    ((App.poll_events s new).2.surface_dims = dims ∧
     (App.poll_events s new).2.frame_dims = dims) := by
  refine ⟨drainLoop_resize_observed _ _ _ _ _ _ hmem, ?_⟩
  rw [App.poll_events, drainLoop_final, hsplit, dimsAfter_append]
  show (dimsAfter dims dims q2).2 = dims ∧ (dimsAfter dims dims q2).1 = dims
  rw [dimsAfter_no_resize q2 dims dims hlast]
  exact ⟨rfl, rfl⟩

/-- Witness for C6: a cycle starting at frame/surface `(800, 600)` that drains
a single native resize to `(400, 300)`: the callback observes both dimensions
already at `(400, 300)`, and so does the final state. -/
theorem resize_applied_before_callback_witness :
    ((AppState.mk [] (400, 300) (400, 300) none, WindowEvent.ResizeHappened (400, 300)) ∈
      (App.poll_events (AppState.mk [] (800, 600) (800, 600) none)
        [WindowEvent.ResizeHappened (400, 300)]).1) ∧
    (((AppState.mk [] (400, 300) (400, 300) none).surface_dims = (400, 300) ∧
      (AppState.mk [] (400, 300) (400, 300) none).frame_dims = (400, 300)) ∧
     ((App.poll_events (AppState.mk [] (800, 600) (800, 600) none)
         [WindowEvent.ResizeHappened (400, 300)]).2.surface_dims = (400, 300) ∧
      (App.poll_events (AppState.mk [] (800, 600) (800, 600) none)
         [WindowEvent.ResizeHappened (400, 300)]).2.frame_dims = (400, 300))) :=
  ⟨by decide,
    resize_applied_before_callback (AppState.mk [] (800, 600) (800, 600) none)
      [WindowEvent.ResizeHappened (400, 300)] (400, 300)
      (AppState.mk [] (400, 300) (400, 300) none) [] []
      (by decide) (by decide) (by intro d; simp)⟩

/-- C10 (frame rule): in a poll cycle that drains no `ResizeHappened` event,
`poll_events` leaves the cached frame dimensions, the surface dimensions and
`last_hovered` unchanged and merely empties the queue; the callback receives
exactly the drained events in order, and every state it observes differs from
the initial one only in the event queue. -/
theorem poll_no_resize_frame_rule (s : AppState) (new : List WindowEvent)
    (h : ∀ dims, WindowEvent.ResizeHappened dims ∉ s.evt_buf ++ new) :
    (App.poll_events s new).2 =
      ⟨[], s.frame_dims, s.surface_dims, s.last_hovered⟩ ∧
    (App.poll_events s new).1.map Prod.snd = s.evt_buf ++ new ∧
    ∀ p ∈ (App.poll_events s new).1,
      p.1.frame_dims = s.frame_dims ∧ p.1.surface_dims = s.surface_dims ∧
      p.1.last_hovered = s.last_hovered := by
  refine ⟨?_, drainLoop_calls _ _ _ _, drainLoop_no_resize_observed _ _ _ _ h⟩
  rw [App.poll_events, drainLoop_final, dimsAfter_no_resize _ _ _ h]

/-- Witness for C10: a cycle draining `[Expose, MouseEnter]` with no resize:
dimensions `(800, 600)` / `(810, 610)` and `last_hovered` survive untouched,
the queue empties, and the callback sees both events in order. -/
theorem poll_no_resize_frame_rule_witness :
    (∀ dims, WindowEvent.ResizeHappened dims ∉
      (AppState.mk [WindowEvent.Expose] (800, 600) (810, 610) (some 3)).evt_buf ++
        [WindowEvent.MouseEnter]) ∧
    ((App.poll_events (AppState.mk [WindowEvent.Expose] (800, 600) (810, 610) (some 3))
        [WindowEvent.MouseEnter]).2 =
      ⟨[], (800, 600), (810, 610), some 3⟩ ∧
     (App.poll_events (AppState.mk [WindowEvent.Expose] (800, 600) (810, 610) (some 3))
        [WindowEvent.MouseEnter]).1.map Prod.snd =
       [WindowEvent.Expose, WindowEvent.MouseEnter] ∧
     ∀ p ∈ (App.poll_events
         (AppState.mk [WindowEvent.Expose] (800, 600) (810, 610) (some 3))
         [WindowEvent.MouseEnter]).1,
       p.1.frame_dims = (800, 600) ∧ p.1.surface_dims = (810, 610) ∧
       p.1.last_hovered = some 3) :=
  ⟨by
    intro dims
    simp,
   by
    exact poll_no_resize_frame_rule
      (AppState.mk [WindowEvent.Expose] (800, 600) (810, 610) (some 3))
      [WindowEvent.MouseEnter]
      (by intro dims; simp)⟩

end RawBrass
